import Mathlib

/-!
Formal model of the document-analysis pipeline in `medical_processor.py`
(class `MedicalOCRProcessor`).  Python strings are modelled as explicit
character lists; regular-expression substitutions are modelled as run
collapsing; exceptions raised by the interpreter or by external services
(HTTP library, OCR backends, the filesystem) are modelled as oracle
parameters carrying either a success value or the exception's message.
-/

namespace MedApp

/-- Strings are modelled as explicit character lists. -/
abbrev Str := List Char

/-- Character data of a Lean string literal; used to transcribe Python string
literals into the `Str` model. -/
def str (s : String) : Str := s.data

/-- Decimal rendering of a natural number, as in Python `f"{n}"`. -/
def natStr (n : Nat) : Str := (toString n).data

/-- The character class `[\x00-\x1F\x7F-\x9F]` of the first substitution in
`clean_text` (medical_processor.py line 64). -/
def isCtl (c : Char) : Bool :=
  c.toNat ≤ 0x1F || (0x7F ≤ c.toNat && c.toNat ≤ 0x9F)

/-- Python's whitespace class: the characters matched by `\s` in a `str`
pattern and stripped by `str.strip()` (code points 09-0D, 1C-1F, 20, 85, A0,
1680, 2000-200A, 2028, 2029, 202F, 205F, 3000). -/
def pyIsSpace (c : Char) : Bool :=
  let n := c.toNat
  (9 ≤ n && n ≤ 13) || (28 ≤ n && n ≤ 32) || n == 133 || n == 160 ||
  n == 0x1680 || (0x2000 ≤ n && n ≤ 0x200A) ||
  n == 0x2028 || n == 0x2029 || n == 0x202F || n == 0x205F || n == 0x3000

/-- `re.sub(r'[class]+', replacement, s)`: replace each maximal run of
characters satisfying `p` by the single character `r`.  The boolean state
records whether the previous character belonged to a run. -/
def collapseAux (p : Char → Bool) (r : Char) : Bool → List Char → List Char
  | _, [] => []
  | inRun, c :: cs =>
    if p c then
      if inRun then collapseAux p r true cs
      else r :: collapseAux p r true cs
    else c :: collapseAux p r false cs

/-- Replace each maximal run of `p`-characters in `l` by one `r`. -/
def collapse (p : Char → Bool) (r : Char) (l : List Char) : List Char :=
  collapseAux p r false l

/-- Python `str.strip()`: drop whitespace from both ends. -/
def pyStrip (l : List Char) : List Char :=
  ((l.dropWhile pyIsSpace).reverse.dropWhile pyIsSpace).reverse

/-- `clean_text` (lines 60-66) on a non-`None` argument: replace runs of
control characters by a space, collapse whitespace runs to single spaces and
strip the ends. -/
def clean_text_chars (s : Str) : Str :=
  pyStrip (collapse pyIsSpace ' ' (collapse isCtl ' ' s))

/-- `clean_text` (lines 60-66): `None` maps to the empty string, any other
argument is cleaned by `clean_text_chars`. -/
def clean_text : Option Str → Str
  | none => []
  | some s => clean_text_chars s

/-- The per-page and per-image validity threshold used at lines 175 and 299:
non-empty text whose stripped form is longer than 10 characters.  This is the
literal translation of `text and len(text.strip()) > 10`. -/
def validText (t : Str) : Prop := t ≠ [] ∧ 10 < (pyStrip t).length

instance (t : Str) : Decidable (validText t) :=
  inferInstanceAs (Decidable (t ≠ [] ∧ 10 < (pyStrip t).length))

/-- The Tesseract fallback of `extract_text_from_image` (lines 178-183): a
non-empty cleaned Tesseract text is returned, anything else yields the
sentinel `"OCR failed - no text extracted"` with method `"Failed"`. -/
def tessFallback (tess : Option Str) : Str × Str :=
  match tess with
  | some raw =>
    let t := clean_text_chars raw
    if t ≠ [] then (t, str "Tesseract")
    else (str "OCR failed - no text extracted", str "Failed")
  | none => (str "OCR failed - no text extracted", str "Failed")

/-- `extract_text_from_image` (lines 171-183).  The two OCR backends are
oracles: `nem` (resp. `tess`) is `some raw` when
`extract_text_with_nemotron` (resp. `extract_text_with_tesseract`) would
return the raw model output `raw` (which those functions pass through
`clean_text`), and `none` when the backend fails and returns `(None, error)`.
If Nemotron is enabled, a key is present and the cleaned Nemotron text passes
the validity check it is returned; otherwise Tesseract is consulted via
`tessFallback`. -/
def extract_text_from_image (useNem : Bool) (key : Str)
    (nem tess : Option Str) : Str × Str :=
  let viaNem : Option (Str × Str) :=
    if useNem ∧ key ≠ [] then
      match nem with
      | some raw =>
        let t := clean_text_chars raw
        if validText t then some (t, str "NVIDIA Nemotron") else none
      | none => none
    else none
  match viaNem with
  | some result => result
  | none => tessFallback tess

/-- An uploaded file as seen by `process_single_file`: declared name and MIME
type, plus oracles for the effects of processing its bytes.  `readExc` is
`some msg` when any step of `process_single_file` raises an exception with
message `msg` (e.g. `uploaded_file.read()`, `Image.open`, or a text-file
write), which the function's `except` clause turns into an `Error:` result.
`imageOcr` gives the two backend outputs used on the `image/*` branch;
`pdfPages` gives, per rasterized page, the two backend outputs used on the
`application/pdf` branch (`pdf_to_images` absorbs its own exceptions and is
modelled by the resulting page list, empty on rasterization failure). -/
structure UFile where
  name : Str
  mime : Str
  readExc : Option Str
  imageOcr : Option Str × Option Str
  pdfPages : List (Option Str × Option Str)
deriving DecidableEq

/-- The result dictionary built by `process_single_file`.  Optional fields
model dictionary keys that are present only on some branches. -/
structure FileResult where
  filename : Str
  ftype : Str
  ocr_text : Option Str
  text_length : Nat
  page_count : Option Nat
  successful_pages : Option Nat
  status : Str
  method : Option Str
deriving DecidableEq

/-- The page marker `f"--- Page {page_num} ---\n\n"` of line 300/303. -/
def pageMarker (pn : Nat) : Str := str "--- Page " ++ natStr pn ++ str " ---\n\n"

/-- The placeholder inserted for an invalid page at line 303. -/
def placeholderChars : Str := str "[OCR failed or no text detected]"

/-- The page loop of the PDF branch (lines 291-303): accumulate the marked
page texts, the successful-page count and the method of the last page. -/
def pdfPagesLoop (useNem : Bool) (key : Str) :
    List (Option Str × Option Str) → Nat → Str → Nat → Str → Str × Nat × Str
  | [], _, text, succ, m => (text, succ, m)
  | pg :: rest, pn, text, succ, _ =>
    let r := extract_text_from_image useNem key pg.1 pg.2
    if validText r.1 then
      pdfPagesLoop useNem key rest (pn + 1)
        (text ++ pageMarker pn ++ r.1 ++ str "\n\n") (succ + 1) r.2
    else
      pdfPagesLoop useNem key rest (pn + 1)
        (text ++ pageMarker pn ++ placeholderChars ++ str "\n\n") succ r.2

/-- `process_single_file` (lines 252-337): dispatch on the declared MIME
type; image files always yield a `Success` record with the extracted text,
PDF files yield `Success` after the page loop (or a `Failed` record when no
page image was produced), other MIME types yield `Unsupported format`, and
any raised exception yields an `Error:` record. -/
def process_single_file (useNem : Bool) (key : Str) (f : UFile) : FileResult :=
  match f.readExc with
  | some e =>
    { filename := f.name, ftype := f.mime, ocr_text := none, text_length := 0,
      page_count := none, successful_pages := none,
      status := str "Error: " ++ e, method := none }
  | none =>
    if (str "image/").isPrefixOf f.mime then
      let r := extract_text_from_image useNem key f.imageOcr.1 f.imageOcr.2
      { filename := f.name, ftype := str "Image", ocr_text := some r.1,
        text_length := r.1.length, page_count := none, successful_pages := none,
        status := str "Success", method := some r.2 }
    else if f.mime = str "application/pdf" then
      if f.pdfPages.isEmpty then
        { filename := f.name, ftype := str "PDF", ocr_text := none,
          text_length := 0, page_count := none, successful_pages := none,
          status := str "Failed: No images extracted", method := none }
      else
        let r := pdfPagesLoop useNem key f.pdfPages 1 [] 0 (str "Tesseract")
        let cleaned := clean_text_chars r.1
        { filename := f.name, ftype := str "PDF", ocr_text := some cleaned,
          text_length := cleaned.length, page_count := some f.pdfPages.length,
          successful_pages := some r.2.1, status := str "Success",
          method := some r.2.2 }
    else
      { filename := f.name, ftype := f.mime, ocr_text := none, text_length := 0,
        page_count := none, successful_pages := none,
        status := str "Unsupported format", method := none }

/-- Observable events of one `process_uploaded_files` run, in order:
`progress c t` is an invocation of the progress callback with arguments
`(c, t)`; `fileDone k` marks the completion of `process_single_file` for the
`k`-th file (1-based). -/
inductive PEvent where
  | progress (completed total : Nat)
  | fileDone (idx : Nat)
deriving DecidableEq

/-- The per-file chunk `f"--- {result['filename']} ---\n\n{result['ocr_text']}\n\n"`
appended to the aggregate text at line 353. -/
def chunkOf (r : FileResult) : Str :=
  str "--- " ++ r.filename ++ str " ---\n\n" ++ r.ocr_text.getD [] ++ str "\n\n"

/-- The loop of `process_uploaded_files` (lines 345-354): the progress
callback fires at the top of each iteration, then the file is processed, its
result is recorded, and `Success` results with an `ocr_text` key are
appended to the aggregate text and to `file_data`. -/
def runLoop (useNem : Bool) (key : Str) (total : Nat) :
    List UFile → Nat → Str → List FileResult → List FileResult →
    List PEvent → Str × List FileResult × List FileResult × List PEvent
  | [], _, acc, info, fdata, tr => (acc, info, fdata, tr)
  | f :: rest, i, acc, info, fdata, tr =>
    let tr2 := tr ++ [PEvent.progress (i + 1) total, PEvent.fileDone (i + 1)]
    let r := process_single_file useNem key f
    if r.status = str "Success" ∧ r.ocr_text ≠ none then
      runLoop useNem key total rest (i + 1) (acc ++ chunkOf r)
        (info ++ [r]) (fdata ++ [r]) tr2
    else
      runLoop useNem key total rest (i + 1) acc (info ++ [r]) fdata tr2

/-- The result quadruple of `process_uploaded_files` together with the event
trace of the run. -/
structure RunResult where
  file_data : Option (List FileResult)
  all_text : Option Str
  combined_path : Option Str
  processed : List FileResult
  trace : List PEvent
deriving DecidableEq

/-- The combined-text artifact path written at lines 357-359. -/
def combinedPathChars : Str := str "Combined_txt/all_ocr_text.txt"

/-- `process_uploaded_files` (lines 339-363): run the loop over all files;
when the aggregate text is non-empty return the data/text/path triple with
the per-file results, otherwise return `None, None, None` with the per-file
results.  The three `if`s share one condition, mirroring the single
`if all_ocr_text:` of line 356. -/
def process_uploaded_files (useNem : Bool) (key : Str) (files : List UFile) :
    RunResult :=
  let r := runLoop useNem key files.length files 0 [] [] [] []
  { file_data := if r.1 ≠ [] then some r.2.2.1 else none,
    all_text := if r.1 ≠ [] then some r.1 else none,
    combined_path := if r.1 ≠ [] then some combinedPathChars else none,
    processed := r.2.1,
    trace := r.2.2.2 }

/-- Retry settings fixed in `__init__` (lines 42-43). -/
structure RetryConfig where
  maxRetries : Nat
  baseDelay : Nat

/-- `max_retries = 3`, `base_delay = 2`. -/
def defaultRetryConfig : RetryConfig := { maxRetries := 3, baseDelay := 2 }

/-- `exponential_backoff` (lines 365-369): a truthy `retry_after` wins,
otherwise `min(base_delay * 2 ** attempt, 60)`. -/
def exponential_backoff (cfg : RetryConfig) (attempt : Nat)
    (retryAfter : Option Nat) : Nat :=
  match retryAfter with
  | some ra => if ra ≠ 0 then ra else min (cfg.baseDelay * 2 ^ attempt) 60
  | none => min (cfg.baseDelay * 2 ^ attempt) 60

/-- Outcome of one attempted HTTP POST inside `send_to_api`.  `reqExc` is a
`requests.exceptions.RequestException` raised by `requests.post`; `parseExc`
is any other exception raised while handling the response (e.g. by
`response.json()`); `resp status retryAfter content` is a returned response
with its status code, parsed `Retry-After` header (when present) and the
extracted `choices[0].message.content` string. -/
inductive ApiOutcome where
  | reqExc (msg : Str)
  | parseExc (msg : Str)
  | resp (status : Nat) (retryAfter : Option Nat) (content : Str)
deriving DecidableEq

/-- The message of the `requests.exceptions.HTTPError` raised by
`response.raise_for_status()`, modelled abstractly from the status code. -/
def httpErrMsg (status : Nat) : Str := str "HTTP error " ++ natStr status

/-- The attempt loop of `send_to_api` (lines 371-440).  `fuel` is the number
of remaining loop iterations (`max_retries - attempt`); the returned pair is
the function's result string together with the list of delays passed to
`time.sleep`, in order.  On 429 the `Retry-After` header is read with default
30 and fed to `exponential_backoff`; on the last attempt
`raise_for_status()` raises an `HTTPError`, caught by the
`RequestException` handler which surfaces `"Request error: ..."`.  Other
4xx/5xx statuses raise in `raise_for_status()`; request and non-request
exceptions retry with pure exponential backoff and surface
`"Request error: ..."` / `"Unexpected error: ..."` once attempts are
exhausted.  A 2xx/3xx response with empty content returns
`"Empty response from API"` immediately, and non-empty content is returned
as success. -/
def sendGo (cfg : RetryConfig) (oracle : Nat → ApiOutcome) :
    Nat → Nat → Str × List Nat
  | 0, _ => (str "Failed after multiple retries", [])
  | fuel + 1, attempt =>
    match oracle attempt with
    | .resp status retryAfter content =>
      if status = 429 then
        let ra := retryAfter.getD 30
        let wait := exponential_backoff cfg attempt (some ra)
        if attempt < cfg.maxRetries - 1 then
          let rest := sendGo cfg oracle fuel (attempt + 1)
          (rest.1, wait :: rest.2)
        else
          (str "Request error: " ++ httpErrMsg status, [])
      else if 400 ≤ status ∧ status < 600 then
        if attempt < cfg.maxRetries - 1 then
          let wait := exponential_backoff cfg attempt none
          let rest := sendGo cfg oracle fuel (attempt + 1)
          (rest.1, wait :: rest.2)
        else
          (str "Request error: " ++ httpErrMsg status, [])
      else
        if content = [] then (str "Empty response from API", [])
        else (content, [])
    | .reqExc msg =>
      if attempt < cfg.maxRetries - 1 then
        let wait := exponential_backoff cfg attempt none
        let rest := sendGo cfg oracle fuel (attempt + 1)
        (rest.1, wait :: rest.2)
      else
        (str "Request error: " ++ msg, [])
    | .parseExc msg =>
      if attempt < cfg.maxRetries - 1 then
        let wait := exponential_backoff cfg attempt none
        let rest := sendGo cfg oracle fuel (attempt + 1)
        (rest.1, wait :: rest.2)
      else
        (str "Unexpected error: " ++ msg, [])

/-- `send_to_api` (lines 371-440): run the attempt loop `max_retries` times
starting at attempt 0; when the loop exits without returning the function
returns `"Failed after multiple retries"`. -/
def send_to_api (cfg : RetryConfig) (oracle : Nat → ApiOutcome) :
    Str × List Nat :=
  sendGo cfg oracle cfg.maxRetries 0

/-- The error-string filter of `analyze_medical_text` (line 504):
`result.startswith(("Error:", "Request error:", "Failed"))`. -/
def startsWithErr (s : Str) : Bool :=
  (str "Error:").isPrefixOf s || (str "Request error:").isPrefixOf s ||
    (str "Failed").isPrefixOf s

/-- `analyze_medical_text` (lines 442-507): fail fast on a missing key, then
on text whose stripped form is shorter than 100 characters; otherwise
delegate to `send_to_api` and wrap results that match the error-string
filter with the `"❌ Analysis failed: "` prefix.  The boolean records
whether `send_to_api` was invoked (i.e. whether any network request was
attempted); the fixed prompt template wrapped around `combined_text` does
not influence any modelled behaviour and is elided. -/
def analyze_medical_text (cfg : RetryConfig) (oracle : Nat → ApiOutcome)
    (combined_text api_key : Str) : Str × Bool :=
  if api_key = [] then (str "❌ API key is required for analysis", false)
  else if combined_text = [] ∨ (pyStrip combined_text).length < 100 then
    (str "❌ No meaningful text extracted for analysis", false)
  else
    let result := (send_to_api cfg oracle).1
    if startsWithErr result then (str "❌ Analysis failed: " ++ result, true)
    else (result, true)

/-- The pair returned by `save_results` together with flags recording which
of the two writes were attempted.  `fst`/`snd` are the two components of the
returned tuple. -/
structure SaveOutcome where
  fst : Option Str
  snd : Str
  jsonAttempted : Bool
  textAttempted : Bool
deriving DecidableEq

/-- The JSON artifact path `analysis_results/medical_analysis_{ts}.json`. -/
def jsonPathOf (ts : Str) : Str :=
  str "analysis_results/medical_analysis_" ++ ts ++ str ".json"

/-- The text artifact path `analysis_results/medical_analysis_{ts}.txt`. -/
def textPathOf (ts : Str) : Str :=
  str "analysis_results/medical_analysis_" ++ ts ++ str ".txt"

/-- `save_results` (lines 509-532): attempt the JSON write; on failure
return `(None, "❌ Error saving JSON: ...")` at once.  Otherwise attempt the
text write and return `(json_path, text_path)` on success or
`(json_path, "❌ Error saving text file: ...")` on failure.  `jsonErr` /
`textErr` are oracles carrying the exception message when the corresponding
`open`/write raises. -/
def save_results (ts : Str) (jsonErr textErr : Option Str) : SaveOutcome :=
  match jsonErr with
  | some e =>
    { fst := none, snd := str "❌ Error saving JSON: " ++ e,
      jsonAttempted := true, textAttempted := false }
  | none =>
    match textErr with
    | some e =>
      { fst := some (jsonPathOf ts), snd := str "❌ Error saving text file: " ++ e,
        jsonAttempted := true, textAttempted := true }
    | none =>
      { fst := some (jsonPathOf ts), snd := textPathOf ts,
        jsonAttempted := true, textAttempted := true }

/-! ### Properties of the text normalizer -/

/-- The head of `l` (if any) is outside the class `p`. -/
def HeadOk (p : Char → Bool) (l : List Char) : Prop :=
  ∀ c, l.head? = some c → p c = false

/-- No two adjacent characters of `l` both lie in the class `p`. -/
def Sparse (p : Char → Bool) (l : List Char) : Prop :=
  l.Chain' fun a b => p a = false ∨ p b = false

lemma headOk_nil (p : Char → Bool) : HeadOk p [] := by
  intro c h
  simp at h

lemma headOk_cons (p : Char → Bool) {c : Char} {cs : List Char}
    (h : p c = false) : HeadOk p (c :: cs) := by
  intro d hd
  simp only [List.head?_cons, Option.some.injEq] at hd
  exact hd ▸ h

lemma collapseAux_of_forall_not (p : Char → Bool) (r : Char) :
    ∀ (l : List Char) (b : Bool), (∀ c ∈ l, p c = false) →
      collapseAux p r b l = l := by
  intro l
  induction l with
  | nil => intro b _; rfl
  | cons c cs ih =>
    intro b h
    have hc : p c = false := h c (List.mem_cons_self ..)
    simp only [collapseAux, hc, Bool.false_eq_true, if_false]
    exact congrArg (c :: ·) (ih false fun d hd => h d (List.mem_cons_of_mem _ hd))

lemma mem_collapseAux (p : Char → Bool) (r : Char) :
    ∀ (l : List Char) (b : Bool) (c : Char), c ∈ collapseAux p r b l →
      c = r ∨ (c ∈ l ∧ p c = false) := by
  intro l
  induction l with
  | nil => intro b c h; simp [collapseAux] at h
  | cons d ds ih =>
    intro b c h
    by_cases hd : p d = true
    · simp only [collapseAux, hd, if_true] at h
      by_cases hb : b = true
      · subst hb
        rcases ih true c h with h1 | ⟨h2, h3⟩
        · exact Or.inl h1
        · exact Or.inr ⟨List.mem_cons_of_mem _ h2, h3⟩
      · have hb' : b = false := by revert hb; cases b <;> simp
        subst hb'
        simp only [if_false, Bool.false_eq_true, List.mem_cons] at h
        rcases h with h1 | h1
        · exact Or.inl h1
        · rcases ih true c h1 with h2 | ⟨h3, h4⟩
          · exact Or.inl h2
          · exact Or.inr ⟨List.mem_cons_of_mem _ h3, h4⟩
    · have hd' : p d = false := by revert hd; cases p d <;> simp
      simp only [collapseAux, hd', Bool.false_eq_true, if_false, List.mem_cons] at h
      rcases h with h1 | h1
      · exact Or.inr ⟨h1 ▸ List.mem_cons_self .., h1 ▸ hd'⟩
      · rcases ih false c h1 with h2 | ⟨h3, h4⟩
        · exact Or.inl h2
        · exact Or.inr ⟨List.mem_cons_of_mem _ h3, h4⟩

lemma mem_collapseAux_of_mem (p : Char → Bool) (r : Char) :
    ∀ (l : List Char) (b : Bool) (c : Char), c ∈ l → p c = false →
      c ∈ collapseAux p r b l := by
  intro l
  induction l with
  | nil => intro b c h; simp at h
  | cons d ds ih =>
    intro b c h hc
    rcases List.mem_cons.mp h with h1 | h1
    · subst h1
      simp only [collapseAux, hc, Bool.false_eq_true, if_false]
      exact List.mem_cons_self ..
    · by_cases hd : p d = true
      · simp only [collapseAux, hd, if_true]
        cases b
        · simp only [Bool.false_eq_true, if_false, List.mem_cons]
          exact Or.inr (ih true c h1 hc)
        · simpa using ih true c h1 hc
      · have hd' : p d = false := by revert hd; cases p d <;> simp
        simp only [collapseAux, hd', Bool.false_eq_true, if_false, List.mem_cons]
        exact Or.inr (ih false c h1 hc)

lemma collapseAux_sparse (p : Char → Bool) (r : Char) :
    ∀ (l : List Char) (b : Bool), Sparse p (collapseAux p r b l) ∧
      (b = true → HeadOk p (collapseAux p r b l)) := by
  intro l
  induction l with
  | nil =>
    intro b
    exact ⟨List.chain'_nil, fun _ => headOk_nil p⟩
  | cons c cs ih =>
    intro b
    by_cases hc : p c = true
    · cases b
      · simp only [collapseAux, hc, if_true, Bool.false_eq_true, if_false]
        constructor
        · refine List.chain'_cons'.mpr ⟨?_, (ih true).1⟩
          intro y hy
          exact Or.inr ((ih true).2 rfl y hy)
        · intro h; cases h
      · simp only [collapseAux, hc, if_true]
        exact ⟨(ih true).1, fun _ => (ih true).2 rfl⟩
    · have hc' : p c = false := by revert hc; cases p c <;> simp
      simp only [collapseAux, hc', Bool.false_eq_true, if_false]
      constructor
      · refine List.chain'_cons'.mpr ⟨?_, (ih false).1⟩
        intro y _
        exact Or.inl hc'
      · intro _
        exact headOk_cons p hc'

lemma collapseAux_eq_self (p : Char → Bool) (r : Char) :
    ∀ (l : List Char) (b : Bool), (∀ c ∈ l, p c = true → c = r) →
      Sparse p l → (b = true → HeadOk p l) → collapseAux p r b l = l := by
  intro l
  induction l with
  | nil => intro b _ _ _; rfl
  | cons c cs ih =>
    intro b hgood hsp hhd
    have hsp2 : Sparse p cs := hsp.tail
    by_cases hc : p c = true
    · have hb : b = false := by
        cases b
        · rfl
        · exact absurd (hhd rfl c rfl) (by simp [hc])
      subst hb
      simp only [collapseAux, hc, if_true, Bool.false_eq_true, if_false]
      have hcr : c = r := hgood c (List.mem_cons_self ..) hc
      have hhd2 : HeadOk p cs := by
        intro y hy
        rcases (List.chain'_cons'.mp hsp).1 y hy with h1 | h1
        · exact absurd hc (by simp [h1])
        · exact h1
      rw [ih true (fun d hd => hgood d (List.mem_cons_of_mem _ hd)) hsp2
        (fun _ => hhd2)]
      rw [hcr]
    · have hc' : p c = false := by revert hc; cases p c <;> simp
      simp only [collapseAux, hc', Bool.false_eq_true, if_false]
      rw [ih false (fun d hd => hgood d (List.mem_cons_of_mem _ hd)) hsp2
        (fun h => by cases h)]

lemma mem_dropWhile_of_mem (q : Char → Bool) :
    ∀ (l : List Char) (c : Char), c ∈ l → q c = false → c ∈ l.dropWhile q := by
  intro l
  induction l with
  | nil => intro c h; simp at h
  | cons d ds ih =>
    intro c h hc
    by_cases hd : q d = true
    · simp only [List.dropWhile_cons, hd, if_true]
      rcases List.mem_cons.mp h with h1 | h1
      · exact absurd (h1 ▸ hc) (by simp [hd])
      · exact ih c h1 hc
    · have hd' : q d = false := by revert hd; cases q d <;> simp
      simpa only [List.dropWhile_cons, hd', Bool.false_eq_true, if_false] using h

lemma mem_of_mem_dropWhile (q : Char → Bool) (l : List Char) (c : Char)
    (h : c ∈ l.dropWhile q) : c ∈ l := by
  have hsub : l.dropWhile q <:+ l :=
    ⟨l.takeWhile q, List.takeWhile_append_dropWhile q l⟩
  exact hsub.subset h

lemma sparse_dropWhile (p q : Char → Bool) :
    ∀ l : List Char, Sparse p l → Sparse p (l.dropWhile q) := by
  intro l
  induction l with
  | nil => intro h; exact h
  | cons d ds ih =>
    intro h
    by_cases hd : q d = true
    · simp only [List.dropWhile_cons, hd, if_true]
      exact ih h.tail
    · have hd' : q d = false := by revert hd; cases q d <;> simp
      simpa only [List.dropWhile_cons, hd', Bool.false_eq_true, if_false] using h

lemma sparse_reverse (p : Char → Bool) (l : List Char) (h : Sparse p l) :
    Sparse p l.reverse := by
  refine List.chain'_reverse.mpr ?_
  exact h.imp fun a b hab => hab.symm

lemma headOk_dropWhile (q : Char → Bool) :
    ∀ l : List Char, HeadOk q (l.dropWhile q) := by
  intro l
  induction l with
  | nil => exact headOk_nil q
  | cons d ds ih =>
    by_cases hd : q d = true
    · simpa only [List.dropWhile_cons, hd, if_true] using ih
    · have hd' : q d = false := by revert hd; cases q d <;> simp
      simp only [List.dropWhile_cons, hd', Bool.false_eq_true, if_false]
      exact headOk_cons q hd'

lemma dropWhile_eq_self_of_headOk (q : Char → Bool) (l : List Char)
    (h : HeadOk q l) : l.dropWhile q = l := by
  cases l with
  | nil => rfl
  | cons c cs =>
    have : q c = false := h c rfl
    simp [List.dropWhile_cons, this]

lemma head?_of_prefix {t a : List Char} (h : t <+: a) (ht : t ≠ []) :
    t.head? = a.head? := by
  obtain ⟨s, hs⟩ := h
  cases t with
  | nil => exact absurd rfl ht
  | cons c cs => rw [← hs]; rfl

lemma mem_of_mem_pyStrip {l : List Char} {c : Char} (h : c ∈ pyStrip l) :
    c ∈ l := by
  unfold pyStrip at h
  rw [List.mem_reverse] at h
  have h2 := mem_of_mem_dropWhile _ _ _ h
  rw [List.mem_reverse] at h2
  exact mem_of_mem_dropWhile _ _ _ h2

lemma mem_pyStrip_of_mem {l : List Char} {c : Char} (h : c ∈ l)
    (hc : pyIsSpace c = false) : c ∈ pyStrip l := by
  unfold pyStrip
  rw [List.mem_reverse]
  refine mem_dropWhile_of_mem _ _ _ ?_ hc
  rw [List.mem_reverse]
  exact mem_dropWhile_of_mem _ _ _ h hc

lemma sparse_pyStrip (p : Char → Bool) (l : List Char) (h : Sparse p l) :
    Sparse p (pyStrip l) := by
  unfold pyStrip
  exact sparse_reverse _ _ (sparse_dropWhile _ _ _ (sparse_reverse _ _
    (sparse_dropWhile _ _ _ h)))

lemma headOk_pyStrip_reverse (l : List Char) :
    HeadOk pyIsSpace (pyStrip l).reverse := by
  unfold pyStrip
  rw [List.reverse_reverse]
  exact headOk_dropWhile _ _

lemma headOk_pyStrip (l : List Char) : HeadOk pyIsSpace (pyStrip l) := by
  intro c hc
  set a := l.dropWhile pyIsSpace with ha
  set m := a.reverse.dropWhile pyIsSpace with hm
  have hms : m <:+ a.reverse :=
    ⟨a.reverse.takeWhile pyIsSpace, List.takeWhile_append_dropWhile _ _⟩
  obtain ⟨s, hs⟩ := hms
  have hpre : m.reverse <+: a := by
    refine ⟨s.reverse, ?_⟩
    rw [← List.reverse_append, hs, List.reverse_reverse]
  have hne : m.reverse ≠ [] := by
    intro hnil
    rw [show pyStrip l = m.reverse from rfl, hnil] at hc
    simp at hc
  have hhd : (m.reverse).head? = a.head? := head?_of_prefix hpre hne
  rw [show pyStrip l = m.reverse from rfl, hhd] at hc
  exact headOk_dropWhile pyIsSpace l c hc

lemma pyStrip_eq_self {t : List Char} (h1 : HeadOk pyIsSpace t)
    (h2 : HeadOk pyIsSpace t.reverse) : pyStrip t = t := by
  unfold pyStrip
  rw [dropWhile_eq_self_of_headOk _ _ h1, dropWhile_eq_self_of_headOk _ _ h2,
    List.reverse_reverse]

lemma isCtl_of_mem_clean {s : Str} {c : Char} (h : c ∈ clean_text_chars s) :
    isCtl c = false := by
  have h2 := mem_of_mem_pyStrip h
  rcases mem_collapseAux pyIsSpace ' ' _ _ _ h2 with h3 | ⟨h3, _⟩
  · subst h3; decide
  · rcases mem_collapseAux isCtl ' ' _ _ _ h3 with h4 | ⟨_, h5⟩
    · subst h4; decide
    · exact h5

lemma space_eq_of_mem_clean {s : Str} {c : Char} (h : c ∈ clean_text_chars s)
    (hc : pyIsSpace c = true) : c = ' ' := by
  have h2 := mem_of_mem_pyStrip h
  rcases mem_collapseAux pyIsSpace ' ' _ _ _ h2 with h3 | ⟨_, h4⟩
  · exact h3
  · exact absurd hc (by simp [h4])

lemma sparse_clean (s : Str) : Sparse pyIsSpace (clean_text_chars s) :=
  sparse_pyStrip _ _ (collapseAux_sparse pyIsSpace ' ' _ false).1

/-- `clean_text` is idempotent: its output contains no control characters,
its whitespace consists of isolated single spaces, and its ends are
non-whitespace, so each of the three normalization stages fixes it. -/
theorem clean_text_chars_idem (s : Str) :
    clean_text_chars (clean_text_chars s) = clean_text_chars s := by
  have h1 : collapse isCtl ' ' (clean_text_chars s) = clean_text_chars s :=
    collapseAux_of_forall_not _ _ _ false fun c hc => isCtl_of_mem_clean hc
  have h2 : collapse pyIsSpace ' ' (clean_text_chars s) = clean_text_chars s :=
    collapseAux_eq_self _ _ _ false (fun c hc h => space_eq_of_mem_clean hc h)
      (sparse_clean s) (fun h => by cases h)
  have h3 : pyStrip (clean_text_chars s) = clean_text_chars s :=
    pyStrip_eq_self (headOk_pyStrip _) (headOk_pyStrip_reverse _)
  show pyStrip (collapse pyIsSpace ' '
    (collapse isCtl ' ' (clean_text_chars s))) = clean_text_chars s
  rw [h1, h2, h3]

lemma clean_text_chars_ne_nil {s : Str} {c : Char} (h : c ∈ s)
    (h1 : isCtl c = false) (h2 : pyIsSpace c = false) :
    clean_text_chars s ≠ [] := by
  have hm : c ∈ clean_text_chars s :=
    mem_pyStrip_of_mem
      (mem_collapseAux_of_mem _ _ _ _ _
        (mem_collapseAux_of_mem _ _ _ _ _ h h1) h2) h2
  intro hn
  rw [hn] at hm
  simp at hm

/-! ### Structural characterizations of the two pipeline loops -/

lemma tessFallback_ne_nil (tess : Option Str) : (tessFallback tess).1 ≠ [] := by
  have hsent : (str "OCR failed - no text extracted") ≠ ([] : Str) := by decide
  cases tess with
  | none => exact hsent
  | some raw =>
    by_cases ht : clean_text_chars raw ≠ []
    · simp only [tessFallback]
      rw [if_pos ht]
      exact ht
    · simp only [tessFallback]
      rw [if_neg ht]
      exact hsent

lemma extract_ne_nil (useNem : Bool) (key : Str) (nem tess : Option Str) :
    (extract_text_from_image useNem key nem tess).1 ≠ [] := by
  by_cases hc : useNem ∧ key ≠ []
  · cases nem with
    | none =>
      simp only [extract_text_from_image]
      rw [if_pos hc]
      exact tessFallback_ne_nil tess
    | some raw =>
      by_cases hv : validText (clean_text_chars raw)
      · simp only [extract_text_from_image]
        rw [if_pos hc]
        simp only [hv, if_true]
        exact hv.1
      · simp only [extract_text_from_image]
        rw [if_pos hc]
        simp only [hv, if_false]
        exact tessFallback_ne_nil tess
  · simp only [extract_text_from_image]
    rw [if_neg hc]
    exact tessFallback_ne_nil tess

/-- The page text built by the PDF page loop from page number `pn` on:
each page contributes its marker, then either its extracted text (when it
passes the validity check) or the placeholder, then a blank line. -/
def pdfText (useNem : Bool) (key : Str) :
    List (Option Str × Option Str) → Nat → Str
  | [], _ => []
  | pg :: rest, pn =>
    let t := (extract_text_from_image useNem key pg.1 pg.2).1
    pageMarker pn ++ (if validText t then t else placeholderChars) ++
      str "\n\n" ++ pdfText useNem key rest (pn + 1)

/-- The number of pages counted as successful by the PDF page loop. -/
def pdfSuccCount (useNem : Bool) (key : Str) :
    List (Option Str × Option Str) → Nat
  | [] => 0
  | pg :: rest =>
    (if validText (extract_text_from_image useNem key pg.1 pg.2).1 then 1 else 0)
      + pdfSuccCount useNem key rest

/-- The method recorded by the PDF page loop: that of the last page, or the
initial value for an empty page list. -/
def pdfMethod (useNem : Bool) (key : Str) :
    List (Option Str × Option Str) → Str → Str
  | [], m => m
  | pg :: rest, _ =>
    pdfMethod useNem key rest (extract_text_from_image useNem key pg.1 pg.2).2

lemma pdfPagesLoop_eq (useNem : Bool) (key : Str) :
    ∀ (pages : List (Option Str × Option Str)) (pn : Nat) (text : Str)
      (succ : Nat) (m : Str),
      pdfPagesLoop useNem key pages pn text succ m =
        (text ++ pdfText useNem key pages pn,
         succ + pdfSuccCount useNem key pages,
         pdfMethod useNem key pages m) := by
  intro pages
  induction pages with
  | nil =>
    intro pn text succ m
    simp [pdfPagesLoop, pdfText, pdfSuccCount, pdfMethod]
  | cons pg rest ih =>
    intro pn text succ m
    by_cases h : validText (extract_text_from_image useNem key pg.1 pg.2).1
    · simp only [pdfPagesLoop, h, if_true, ih, pdfText, pdfSuccCount, pdfMethod,
        List.append_assoc, Prod.mk.injEq]
      refine ⟨trivial, by omega, trivial⟩
    · simp only [pdfPagesLoop, h, if_false, ih, pdfText, pdfSuccCount, pdfMethod,
        List.append_assoc, Prod.mk.injEq]
      refine ⟨trivial, by omega, trivial⟩

/-- The aggregate text accumulated by `process_uploaded_files`: the chunks
of exactly those per-file results that are `Success` and carry an
`ocr_text` key, in upload order. -/
def aggText (useNem : Bool) (key : Str) : List UFile → Str
  | [] => []
  | f :: rest =>
    let r := process_single_file useNem key f
    (if r.status = str "Success" ∧ r.ocr_text ≠ none then chunkOf r else [])
      ++ aggText useNem key rest

/-- The `file_data` list accumulated by `process_uploaded_files`. -/
def succResults (useNem : Bool) (key : Str) : List UFile → List FileResult
  | [] => []
  | f :: rest =>
    let r := process_single_file useNem key f
    (if r.status = str "Success" ∧ r.ocr_text ≠ none then [r] else [])
      ++ succResults useNem key rest

/-- The event trace of a run from 0-based file index `i` on: for each file,
one progress-callback invocation followed by the completion of that file's
processing. -/
def traceFrom (total : Nat) : List UFile → Nat → List PEvent
  | [], _ => []
  | _ :: rest, i =>
    PEvent.progress (i + 1) total :: PEvent.fileDone (i + 1) ::
      traceFrom total rest (i + 1)

lemma runLoop_eq (useNem : Bool) (key : Str) (total : Nat) :
    ∀ (fs : List UFile) (i : Nat) (acc : Str) (info fdata : List FileResult)
      (tr : List PEvent),
      runLoop useNem key total fs i acc info fdata tr =
        (acc ++ aggText useNem key fs,
         info ++ fs.map (process_single_file useNem key),
         fdata ++ succResults useNem key fs,
         tr ++ traceFrom total fs i) := by
  intro fs
  induction fs with
  | nil =>
    intro i acc info fdata tr
    simp [runLoop, aggText, succResults, traceFrom]
  | cons f rest ih =>
    intro i acc info fdata tr
    by_cases h : (process_single_file useNem key f).status = str "Success" ∧
        (process_single_file useNem key f).ocr_text ≠ none
    · simp only [runLoop, ih, aggText, succResults, traceFrom, List.map_cons]
      rw [if_pos h, if_pos h, if_pos h]
      simp [List.append_assoc]
    · simp only [runLoop, ih, aggText, succResults, traceFrom, List.map_cons]
      rw [if_neg h, if_neg h, if_neg h]
      simp [List.append_assoc]


/-! ### Branch lemmas for `process_single_file` -/

lemma psf_of_exc (useNem : Bool) (key : Str) (f : UFile) (e : Str)
    (h : f.readExc = some e) :
    process_single_file useNem key f =
      { filename := f.name, ftype := f.mime, ocr_text := none, text_length := 0,
        page_count := none, successful_pages := none,
        status := str "Error: " ++ e, method := none } := by
  unfold process_single_file
  rw [h]

lemma psf_of_image (useNem : Bool) (key : Str) (f : UFile)
    (h : f.readExc = none) (h2 : (str "image/").isPrefixOf f.mime = true) :
    process_single_file useNem key f =
      { filename := f.name, ftype := str "Image",
        ocr_text :=
          some (extract_text_from_image useNem key f.imageOcr.1 f.imageOcr.2).1,
        text_length :=
          (extract_text_from_image useNem key f.imageOcr.1 f.imageOcr.2).1.length,
        page_count := none, successful_pages := none,
        status := str "Success",
        method :=
          some (extract_text_from_image useNem key f.imageOcr.1 f.imageOcr.2).2 } := by
  unfold process_single_file
  rw [h, if_pos h2]

lemma psf_of_pdf_nil (useNem : Bool) (key : Str) (f : UFile)
    (h : f.readExc = none) (h2 : f.mime = str "application/pdf")
    (h3 : f.pdfPages = []) :
    process_single_file useNem key f =
      { filename := f.name, ftype := str "PDF", ocr_text := none,
        text_length := 0, page_count := none, successful_pages := none,
        status := str "Failed: No images extracted", method := none } := by
  unfold process_single_file
  rw [h, if_neg (by rw [h2]; decide), if_pos h2, if_pos (by simp [h3])]

lemma psf_of_pdf (useNem : Bool) (key : Str) (f : UFile)
    (h : f.readExc = none) (h2 : f.mime = str "application/pdf")
    (h3 : f.pdfPages ≠ []) :
    process_single_file useNem key f =
      { filename := f.name, ftype := str "PDF",
        ocr_text := some (clean_text_chars (pdfText useNem key f.pdfPages 1)),
        text_length := (clean_text_chars (pdfText useNem key f.pdfPages 1)).length,
        page_count := some f.pdfPages.length,
        successful_pages := some (pdfSuccCount useNem key f.pdfPages),
        status := str "Success",
        method := some (pdfMethod useNem key f.pdfPages (str "Tesseract")) } := by
  unfold process_single_file
  rw [h, if_neg (by rw [h2]; decide), if_pos h2, if_neg (by simp [h3]),
    pdfPagesLoop_eq]
  simp

lemma psf_of_other (useNem : Bool) (key : Str) (f : UFile)
    (h : f.readExc = none) (h2 : (str "image/").isPrefixOf f.mime = false)
    (h3 : f.mime ≠ str "application/pdf") :
    process_single_file useNem key f =
      { filename := f.name, ftype := f.mime, ocr_text := none, text_length := 0,
        page_count := none, successful_pages := none,
        status := str "Unsupported format", method := none } := by
  unfold process_single_file
  rw [h, if_neg (by simp [h2]), if_neg h3]

lemma error_status_ne_success (e : Str) : str "Error: " ++ e ≠ str "Success" := by
  intro h
  have h2 : ('E' :: (str "rror: " ++ e)) = ('S' :: str "uccess") := h
  injection h2 with hh ht
  exact absurd hh (by decide)

lemma clean_pdfText_ne_nil (useNem : Bool) (key : Str)
    (pg : Option Str × Option Str) (rest : List (Option Str × Option Str))
    (pn : Nat) : clean_text_chars (pdfText useNem key (pg :: rest) pn) ≠ [] := by
  have hP : 'P' ∈ pdfText useNem key (pg :: rest) pn := by
    simp only [pdfText, pageMarker, List.append_assoc]
    refine List.mem_append_left _ ?_
    decide
  exact clean_text_chars_ne_nil hP (by decide) (by decide)

lemma psf_status_iff (useNem : Bool) (key : Str) (f : UFile) :
    (process_single_file useNem key f).status = str "Success" ↔
      ∃ t, (process_single_file useNem key f).ocr_text = some t ∧ t ≠ [] := by
  cases hre : f.readExc with
  | some e =>
    rw [psf_of_exc useNem key f e hre]
    constructor
    · intro h
      exact absurd h (error_status_ne_success e)
    · rintro ⟨t, ht, _⟩
      exact absurd ht (by simp)
  | none =>
    by_cases h2 : (str "image/").isPrefixOf f.mime = true
    · rw [psf_of_image useNem key f hre h2]
      constructor
      · intro _
        exact ⟨_, rfl, extract_ne_nil useNem key f.imageOcr.1 f.imageOcr.2⟩
      · intro _
        rfl
    · have h2f : (str "image/").isPrefixOf f.mime = false := by
        cases hE : (str "image/").isPrefixOf f.mime
        · rfl
        · exact absurd hE h2
      by_cases h3 : f.mime = str "application/pdf"
      · by_cases h4 : f.pdfPages = []
        · rw [psf_of_pdf_nil useNem key f hre h3 h4]
          constructor
          · intro h
            exact absurd h
              (by show str "Failed: No images extracted" ≠ str "Success"; decide)
          · rintro ⟨t, ht, _⟩
            exact absurd ht (by simp)
        · rw [psf_of_pdf useNem key f hre h3 h4]
          constructor
          · intro _
            refine ⟨_, rfl, ?_⟩
            obtain ⟨pg, rest, hpages⟩ : ∃ pg rest, f.pdfPages = pg :: rest := by
              cases hp : f.pdfPages with
              | nil => exact absurd hp h4
              | cons a b => exact ⟨a, b, rfl⟩
            rw [hpages]
            exact clean_pdfText_ne_nil useNem key pg rest 1
          · intro _
            rfl
      · rw [psf_of_other useNem key f hre h2f h3]
        constructor
        · intro h
          exact absurd h
            (by show str "Unsupported format" ≠ str "Success"; decide)
        · rintro ⟨t, ht, _⟩
          exact absurd ht (by simp)

/-! ### Spec-side descriptions used by the claims -/

/-- The text produced by the extractor for one rasterized page. -/
def pageOut (useNem : Bool) (key : Str) (pg : Option Str × Option Str) : Str :=
  (extract_text_from_image useNem key pg.1 pg.2).1

/-- Description written from the spec's words for claim C6: the page text of
a PDF whose pages all carry their extracted text except, when the third
argument is `some k`, the page at relative position `k`, which carries the
placeholder instead.  Every page contributes exactly one `--- Page n ---`
marker. -/
def pdfSegText (useNem : Bool) (key : Str) :
    List (Option Str × Option Str) → Nat → Option Nat → Str
  | [], _, _ => []
  | pg :: rest, pn, some 0 =>
    pageMarker pn ++ placeholderChars ++ str "\n\n" ++
      pdfSegText useNem key rest (pn + 1) none
  | pg :: rest, pn, some (k + 1) =>
    pageMarker pn ++ pageOut useNem key pg ++ str "\n\n" ++
      pdfSegText useNem key rest (pn + 1) (some k)
  | pg :: rest, pn, none =>
    pageMarker pn ++ pageOut useNem key pg ++ str "\n\n" ++
      pdfSegText useNem key rest (pn + 1) none

lemma pdfText_of_all_valid (useNem : Bool) (key : Str) :
    ∀ (pages : List (Option Str × Option Str)) (pn : Nat),
      (∀ i, i < pages.length →
        validText (pageOut useNem key (pages.getD i (none, none)))) →
      pdfText useNem key pages pn = pdfSegText useNem key pages pn none ∧
      pdfSuccCount useNem key pages = pages.length := by
  intro pages
  induction pages with
  | nil => intro pn _; exact ⟨rfl, rfl⟩
  | cons pg rest ih =>
    intro pn h
    have h0 : validText (pageOut useNem key pg) := by
      have := h 0 (by simp)
      simpa using this
    have hrest : ∀ i, i < rest.length →
        validText (pageOut useNem key (rest.getD i (none, none))) := by
      intro i hi
      have := h (i + 1) (by simp; omega)
      simpa [List.getD_cons_succ] using this
    have h0r : validText (extract_text_from_image useNem key pg.1 pg.2).1 := h0
    obtain ⟨ht, hc⟩ := ih (pn + 1) hrest
    constructor
    · simp only [pdfText, pdfSegText]
      rw [if_pos h0r, ht]
      simp [pageOut, List.append_assoc]
    · simp only [pdfSuccCount]
      rw [if_pos h0r, hc]
      simp only [List.length_cons]
      omega

lemma pdfText_of_one_invalid (useNem : Bool) (key : Str) :
    ∀ (pages : List (Option Str × Option Str)) (k pn : Nat),
      k < pages.length →
      ¬ validText (pageOut useNem key (pages.getD k (none, none))) →
      (∀ i, i < pages.length → i ≠ k →
        validText (pageOut useNem key (pages.getD i (none, none)))) →
      pdfText useNem key pages pn = pdfSegText useNem key pages pn (some k) ∧
      pdfSuccCount useNem key pages = pages.length - 1 := by
  intro pages
  induction pages with
  | nil =>
    intro k pn hk
    exact absurd hk (by simp)
  | cons pg rest ih =>
    intro k pn hk hbad hgood
    cases k with
    | zero =>
      have h0 : ¬ validText (pageOut useNem key pg) := by simpa using hbad
      have hrest : ∀ i, i < rest.length →
          validText (pageOut useNem key (rest.getD i (none, none))) := by
        intro i hi
        have := hgood (i + 1) (by simp; omega) (by omega)
        simpa [List.getD_cons_succ] using this
      have h0r : ¬ validText (extract_text_from_image useNem key pg.1 pg.2).1 := h0
      obtain ⟨ht, hc⟩ := pdfText_of_all_valid useNem key rest (pn + 1) hrest
      constructor
      · simp only [pdfText, pdfSegText]
        rw [if_neg h0r, ht]
      · simp only [pdfSuccCount]
        rw [if_neg h0r, hc]
        simp
    | succ k2 =>
      have h0 : validText (pageOut useNem key pg) := by
        have := hgood 0 (by simp) (by omega)
        simpa using this
      have hk2 : k2 < rest.length := by
        simp only [List.length_cons] at hk
        omega
      have hbad2 : ¬ validText (pageOut useNem key (rest.getD k2 (none, none))) := by
        simpa [List.getD_cons_succ] using hbad
      have hgood2 : ∀ i, i < rest.length → i ≠ k2 →
          validText (pageOut useNem key (rest.getD i (none, none))) := by
        intro i hi hne
        have := hgood (i + 1) (by simp; omega) (by omega)
        simpa [List.getD_cons_succ] using this
      have h0r : validText (extract_text_from_image useNem key pg.1 pg.2).1 := h0
      obtain ⟨ht, hc⟩ := ih k2 (pn + 1) hk2 hbad2 hgood2
      constructor
      · simp only [pdfText, pdfSegText]
        rw [if_pos h0r, ht]
        simp [pageOut, List.append_assoc]
      · simp only [pdfSuccCount]
        rw [if_pos h0r, hc]
        simp only [List.length_cons]
        omega

/-- Description of the aggregate text written from the spec's words for
claim C2: the concatenation of the chunks of exactly those per-file results
whose status is `Success` and which carry an `ocr_text` key. -/
def successChunks (useNem : Bool) (key : Str) (files : List UFile) : Str :=
  (((files.map (process_single_file useNem key)).filter
      (fun r => r.status == str "Success" && r.ocr_text.isSome)).map chunkOf).join

lemma aggText_eq_chunks (useNem : Bool) (key : Str) :
    ∀ files : List UFile,
      aggText useNem key files = successChunks useNem key files := by
  intro files
  induction files with
  | nil => rfl
  | cons f rest ih =>
    have hbool : ((process_single_file useNem key f).status == str "Success" &&
          (process_single_file useNem key f).ocr_text.isSome) = true ↔
        ((process_single_file useNem key f).status = str "Success" ∧
          (process_single_file useNem key f).ocr_text ≠ none) := by
      simp [Bool.and_eq_true, beq_iff_eq, Option.isSome_iff_ne_none]
    by_cases hc : (process_single_file useNem key f).status = str "Success" ∧
        (process_single_file useNem key f).ocr_text ≠ none
    · have hB := hbool.mpr hc
      simp only [aggText, successChunks, List.map_cons, List.filter_cons, hB,
        if_true, List.join_cons]
      rw [if_pos hc]
      rw [ih]
      rfl
    · have hB : ((process_single_file useNem key f).status == str "Success" &&
          (process_single_file useNem key f).ocr_text.isSome) = false := by
        cases hE : ((process_single_file useNem key f).status == str "Success" &&
            (process_single_file useNem key f).ocr_text.isSome)
        · rfl
        · exact absurd (hbool.mp hE) hc
      simp only [aggText, successChunks, List.map_cons, List.filter_cons, hB,
        Bool.false_eq_true, if_false]
      rw [if_neg hc]
      rw [ih]
      rfl

lemma processed_eq (useNem : Bool) (key : Str) (files : List UFile) :
    (process_uploaded_files useNem key files).processed =
      files.map (process_single_file useNem key) := by
  simp [process_uploaded_files, runLoop_eq]

lemma trace_eq (useNem : Bool) (key : Str) (files : List UFile) :
    (process_uploaded_files useNem key files).trace =
      traceFrom files.length files 0 := by
  simp [process_uploaded_files, runLoop_eq]

lemma traceFrom_length (total : Nat) :
    ∀ (files : List UFile) (i : Nat),
      (traceFrom total files i).length = 2 * files.length := by
  intro files
  induction files with
  | nil => intro i; rfl
  | cons f rest ih =>
    intro i
    simp only [traceFrom, List.length_cons, ih]
    omega

lemma aggText_eq_nil (useNem : Bool) (key : Str) :
    ∀ files : List UFile,
      (∀ g ∈ files, ¬((process_single_file useNem key g).status = str "Success" ∧
        (process_single_file useNem key g).ocr_text ≠ none)) →
      aggText useNem key files = [] := by
  intro files
  induction files with
  | nil => intro _; rfl
  | cons f rest ih =>
    intro h
    simp only [aggText]
    rw [if_neg (h f (List.mem_cons_self ..)),
      ih fun g hg => h g (List.mem_cons_of_mem _ hg)]
    rfl

/-! ### Concrete inputs used by counterexamples and witnesses -/

/-- An attempt oracle answering every request with HTTP 429 and no
`Retry-After` header. -/
def oracle429 : Nat → ApiOutcome := fun _ => ApiOutcome.resp 429 none []

/-- An attempt oracle whose requests always raise a request exception. -/
def nullOracle : Nat → ApiOutcome := fun _ => ApiOutcome.reqExc []

/-- An attempt oracle answering every request with HTTP 200 and an empty
completion content. -/
def emptyRespOracle : Nat → ApiOutcome := fun _ => ApiOutcome.resp 200 none []

/-- An attempt oracle whose response handling always raises a non-request
exception with message `boom`. -/
def boomOracle : Nat → ApiOutcome := fun _ => ApiOutcome.parseExc (str "boom")

/-- A 150-character aggregate text, long enough to pass the 100-character
minimum of `analyze_medical_text`. -/
def text150 : Str := List.replicate 150 'a'

/-- A two-page PDF upload whose first page OCRs to a long text and whose
second page defeats both OCR backends (both oracles fail), so that
`extract_text_from_image` returns the 27-character sentinel for it. -/
def cpdfFile : UFile :=
  { name := str "doc.pdf", mime := str "application/pdf", readExc := none,
    imageOcr := (none, none),
    pdfPages := [(none, some (str "This page has plenty of text.")), (none, none)] }

/-- A two-page PDF upload whose first page OCRs to a long text and whose
second page yields only the 5-character Tesseract text `short`, failing the
validity check. -/
def cpdfFile2 : UFile :=
  { name := str "doc.pdf", mime := str "application/pdf", readExc := none,
    imageOcr := (none, none),
    pdfPages := [(none, some (str "This page has plenty of text.")),
      (none, some (str "short"))] }

/-- An upload with an unsupported MIME type. -/
def sampleTxtFile : UFile :=
  { name := str "notes.txt", mime := str "text/plain", readExc := none,
    imageOcr := (none, none), pdfPages := [] }

/-- Recognizer for a rate-limited response carrying no `Retry-After`
header. -/
def is429NoHeader : ApiOutcome → Bool
  | .resp status ra _ => status == 429 && ra == none
  | _ => false

lemma is429_shape {o : ApiOutcome} (h : is429NoHeader o = true) :
    ∃ c, o = ApiOutcome.resp 429 none c := by
  cases o with
  | resp status ra content =>
    simp only [is429NoHeader, Bool.and_eq_true, beq_iff_eq] at h
    obtain ⟨h1, h2⟩ := h
    subst h1
    subst h2
    exact ⟨content, rfl⟩
  | reqExc m => simp [is429NoHeader] at h
  | parseExc m => simp [is429NoHeader] at h

/-! ### The claims -/

/-- C1, counterexample: with the default configuration and a stream of 429
responses carrying no `Retry-After` header, `send_to_api` sleeps 30 seconds
before each of its two retries — not the `min(2 * 2^(i-1), 60)` = 2 and 4
seconds the claim asserts, because line 408 reads the absent header with
default 30 and a truthy `retry_after` short-circuits the exponential
formula in `exponential_backoff`. -/
theorem claim1_counterexample :
    (send_to_api defaultRetryConfig oracle429).2 = [30, 30] ∧
    (send_to_api defaultRetryConfig oracle429).2 ≠
      [min (2 * 2 ^ 0) 60, min (2 * 2 ^ 1) 60] := by
  decide

/-- C1, amended: on a stream of 429 responses with no `Retry-After` header,
`send_to_api` (default `max_retries = 3`) sleeps exactly 30 seconds before
each of its two retries and then surfaces the underlying HTTP error — it
returns a failure rather than looping unboundedly. -/
theorem claim1_amended (oracle : Nat → ApiOutcome)
    (h : ∀ n, is429NoHeader (oracle n) = true) :
    send_to_api defaultRetryConfig oracle =
      (str "Request error: " ++ httpErrMsg 429, [30, 30]) := by
  obtain ⟨c0, h0⟩ := is429_shape (h 0)
  obtain ⟨c1, h1⟩ := is429_shape (h 1)
  obtain ⟨c2, h2⟩ := is429_shape (h 2)
  have s0 : sendGo defaultRetryConfig oracle 3 0 =
      ((sendGo defaultRetryConfig oracle 2 1).1,
        30 :: (sendGo defaultRetryConfig oracle 2 1).2) := by
    show sendGo defaultRetryConfig oracle (2 + 1) 0 = _
    simp [sendGo, h0, exponential_backoff, defaultRetryConfig]
  have s1 : sendGo defaultRetryConfig oracle 2 1 =
      ((sendGo defaultRetryConfig oracle 1 2).1,
        30 :: (sendGo defaultRetryConfig oracle 1 2).2) := by
    show sendGo defaultRetryConfig oracle (1 + 1) 1 = _
    simp [sendGo, h1, exponential_backoff, defaultRetryConfig]
  have s2 : sendGo defaultRetryConfig oracle 1 2 =
      (str "Request error: " ++ httpErrMsg 429, []) := by
    show sendGo defaultRetryConfig oracle (0 + 1) 2 = _
    simp [sendGo, h2, exponential_backoff, defaultRetryConfig]
  show sendGo defaultRetryConfig oracle defaultRetryConfig.maxRetries 0 = _
  rw [show defaultRetryConfig.maxRetries = 3 from rfl, s0, s1, s2]

/-- C1, witness for the amended theorem at the concrete all-429 oracle. -/
theorem claim1_amended_witness :
    send_to_api defaultRetryConfig oracle429 =
      (str "Request error: " ++ httpErrMsg 429, [30, 30]) :=
  claim1_amended oracle429 (fun _ => rfl)

/-- C2: a per-file result has status `Success` exactly when it carries a
non-empty extracted text, and the aggregate text of a run is the
concatenation of the chunks of exactly those results that are `Success`
with an `ocr_text` key (`None` when that concatenation is empty). -/
theorem claim2_success_iff_and_aggregate (useNem : Bool) (key : Str)
    (f : UFile) (files : List UFile) :
    ((process_single_file useNem key f).status = str "Success" ↔
      ∃ t, (process_single_file useNem key f).ocr_text = some t ∧ t ≠ []) ∧
    (process_uploaded_files useNem key files).all_text =
      (if successChunks useNem key files = [] then none
       else some (successChunks useNem key files)) := by
  refine ⟨psf_status_iff useNem key f, ?_⟩
  have hagg : aggText useNem key files = successChunks useNem key files :=
    aggText_eq_chunks useNem key files
  simp only [process_uploaded_files, runLoop_eq, List.nil_append]
  by_cases hch : successChunks useNem key files = []
  · rw [hagg, hch]
    simp
  · rw [hagg, if_pos hch, if_neg hch]

/-- C3, counterexample: when the JSON write fails, `save_results` returns at
once — the text write is never attempted, the first component is `None`
(not a path-or-error for the JSON artifact) and the second component
carries the JSON error, so the writes are not independent as claimed. -/
theorem claim3_counterexample :
    (save_results (str "T") (some (str "disk full")) none).textAttempted = false ∧
    (save_results (str "T") (some (str "disk full")) none).fst = none ∧
    (save_results (str "T") (some (str "disk full")) none).snd =
      str "❌ Error saving JSON: disk full" := by
  decide

/-- C3, amended: the JSON write is always attempted; a text-write failure
does not undo the JSON outcome — the caller still receives the JSON path
first and a text path-or-error second; but a JSON-write failure aborts the
function: the text write is not attempted and the caller receives
`(None, json-error)`. -/
theorem claim3_amended (ts : Str) (jsonErr textErr : Option Str) :
    (save_results ts jsonErr textErr).jsonAttempted = true ∧
    (jsonErr = none →
      (save_results ts jsonErr textErr).textAttempted = true ∧
      (save_results ts jsonErr textErr).fst = some (jsonPathOf ts)) ∧
    (jsonErr = none → textErr = none →
      (save_results ts jsonErr textErr).snd = textPathOf ts) ∧
    (jsonErr = none → ∀ e, textErr = some e →
      (save_results ts jsonErr textErr).snd =
        str "❌ Error saving text file: " ++ e) ∧
    (∀ e, jsonErr = some e →
      (save_results ts jsonErr textErr).textAttempted = false ∧
      (save_results ts jsonErr textErr).fst = none ∧
      (save_results ts jsonErr textErr).snd = str "❌ Error saving JSON: " ++ e) := by
  cases jsonErr with
  | none =>
    cases textErr with
    | none =>
      refine ⟨rfl, fun _ => ⟨rfl, rfl⟩, fun _ _ => rfl, ?_, ?_⟩
      · intro _ e he
        cases he
      · intro e he
        cases he
    | some e2 =>
      refine ⟨rfl, fun _ => ⟨rfl, rfl⟩, ?_, ?_, ?_⟩
      · intro _ he
        cases he
      · intro _ e he
        injection he with he2
        subst he2
        rfl
      · intro e he
        cases he
  | some e1 =>
    refine ⟨rfl, ?_, ?_, ?_, ?_⟩
    · intro h
      cases h
    · intro h
      cases h
    · intro h
      cases h
    · intro e he
      injection he with he2
      subst he2
      exact ⟨rfl, rfl, rfl⟩

/-- C3, witness for the amended theorem: JSON write succeeds, text write
fails — partial success in the only direction the code supports. -/
theorem claim3_amended_witness :
    (save_results (str "T") none (some (str "boom"))).jsonAttempted = true ∧
    (save_results (str "T") none (some (str "boom"))).textAttempted = true ∧
    (save_results (str "T") none (some (str "boom"))).fst =
      some (jsonPathOf (str "T")) ∧
    (save_results (str "T") none (some (str "boom"))).snd =
      str "❌ Error saving text file: " ++ str "boom" := by
  have h := claim3_amended (str "T") none (some (str "boom"))
  exact ⟨h.1, (h.2.1 rfl).1, (h.2.1 rfl).2, h.2.2.2.1 rfl (str "boom") rfl⟩

set_option maxRecDepth 10000 in
/-- C4: evidence for the code bug.  With a valid key and sufficient text,
an empty API response makes `send_to_api` return
`"Empty response from API"`, and a persistent parse failure makes it return
`"Unexpected error: boom"`; `analyze_medical_text` returns both strings
unchanged — its prefix filter `("Error:", "Request error:", "Failed")`
matches neither, so these client errors reach the caller without the
`"❌ Analysis failed: "` wrapper, looking like successful analyses. -/
theorem claim4_unwrapped_errors :
    analyze_medical_text defaultRetryConfig emptyRespOracle text150 (str "k") =
      (str "Empty response from API", true) ∧
    analyze_medical_text defaultRetryConfig boomOracle text150 (str "k") =
      (str "Unexpected error: boom", true) ∧
    (str "❌").isPrefixOf
      (analyze_medical_text defaultRetryConfig emptyRespOracle text150
        (str "k")).1 = false := by
  decide

/-- C5: with an empty credential, `analyze_medical_text` returns the
missing-credential error, and with a non-empty credential but stripped text
shorter than 100 characters it returns the insufficient-input error; in
both cases the retrying client is never invoked (the boolean component is
`false`, i.e. no network request is made). -/
theorem claim5_preconditions (cfg : RetryConfig) (oracle : Nat → ApiOutcome)
    (combined_text api_key : Str) :
    (api_key = [] →
      analyze_medical_text cfg oracle combined_text api_key =
        (str "❌ API key is required for analysis", false)) ∧
    (api_key ≠ [] → (pyStrip combined_text).length < 100 →
      analyze_medical_text cfg oracle combined_text api_key =
        (str "❌ No meaningful text extracted for analysis", false)) := by
  constructor
  · intro h
    unfold analyze_medical_text
    rw [if_pos h]
  · intro hk hlen
    unfold analyze_medical_text
    rw [if_neg hk, if_pos (Or.inr hlen)]

/-- C5, witness: an empty credential, and a 50-character text with a
credential present. -/
theorem claim5_witness :
    analyze_medical_text defaultRetryConfig nullOracle (str "x") [] =
      (str "❌ API key is required for analysis", false) ∧
    analyze_medical_text defaultRetryConfig nullOracle
        (List.replicate 50 'a') (str "k") =
      (str "❌ No meaningful text extracted for analysis", false) :=
  ⟨(claim5_preconditions defaultRetryConfig nullOracle (str "x") []).1 rfl,
   (claim5_preconditions defaultRetryConfig nullOracle
      (List.replicate 50 'a') (str "k")).2 (by decide) (by decide)⟩

set_option maxRecDepth 10000 in
/-- C6, counterexample: on a two-page PDF whose second page defeats both OCR
backends, the 27-character sentinel `"OCR failed - no text extracted"`
passes the `> 10` validity check, so the failed page is counted successful:
`successful_pages = page_count = 2` (not strictly less, as the claim
requires) and no placeholder marker appears in the document text. -/
theorem claim6_counterexample :
    (process_single_file false [] cpdfFile).page_count = some 2 ∧
    (process_single_file false [] cpdfFile).successful_pages = some 2 ∧
    ¬ placeholderChars <:+:
        ((process_single_file false [] cpdfFile).ocr_text.getD []) := by
  decide

/-- C6, amended: when "extraction fails on page `k`" is read as the code's
own per-page validity check failing (the page text is empty or at most 10
characters once stripped — which a total OCR failure does NOT trigger,
since the sentinel is 27 characters), the claim holds: the document text is
the cleaned concatenation of one marked segment per page with the
placeholder exactly at position `k` and the extracted text elsewhere,
`page_count = N`, and `successful_pages = N - 1 < N`. -/
theorem claim6_amended (useNem : Bool) (key : Str) (f : UFile) (k : Nat)
    (h1 : f.readExc = none) (h2 : f.mime = str "application/pdf")
    (hk : k < f.pdfPages.length)
    (hbad : ¬ validText (pageOut useNem key (f.pdfPages.getD k (none, none))))
    (hgood : ∀ i, i < f.pdfPages.length → i ≠ k →
      validText (pageOut useNem key (f.pdfPages.getD i (none, none)))) :
    (process_single_file useNem key f).ocr_text =
      some (clean_text_chars (pdfSegText useNem key f.pdfPages 1 (some k))) ∧
    (process_single_file useNem key f).page_count = some f.pdfPages.length ∧
    (process_single_file useNem key f).successful_pages =
      some (f.pdfPages.length - 1) ∧
    f.pdfPages.length - 1 < f.pdfPages.length := by
  have hne : f.pdfPages ≠ [] := by
    intro hnil
    rw [hnil] at hk
    simp at hk
  obtain ⟨ht, hc⟩ :=
    pdfText_of_one_invalid useNem key f.pdfPages k 1 hk hbad hgood
  rw [psf_of_pdf useNem key f h1 h2 hne]
  refine ⟨by rw [ht], rfl, by rw [hc], by omega⟩

set_option maxRecDepth 10000 in
/-- C6, witness for the amended theorem: a two-page PDF whose second page
yields the 5-character text `short`. -/
theorem claim6_amended_witness :
    (process_single_file false [] cpdfFile2).ocr_text =
      some (clean_text_chars (pdfSegText false [] cpdfFile2.pdfPages 1 (some 1))) ∧
    (process_single_file false [] cpdfFile2).page_count =
      some cpdfFile2.pdfPages.length ∧
    (process_single_file false [] cpdfFile2).successful_pages =
      some (cpdfFile2.pdfPages.length - 1) ∧
    cpdfFile2.pdfPages.length - 1 < cpdfFile2.pdfPages.length :=
  claim6_amended false [] cpdfFile2 1 rfl rfl (by decide) (by decide)
    (by decide)

/-- C7: a readable upload whose MIME type is neither `image/*` nor
`application/pdf` yields the `Unsupported format` status with text length 0
and no text, no exception escapes, and the per-file results of a run
containing it are exactly the per-file function mapped over all files — so
every other file's result, before or after it, is unaffected. -/
theorem claim7_unsupported (useNem : Bool) (key : Str) (f : UFile)
    (pre post : List UFile) (h1 : f.readExc = none)
    (h2 : (str "image/").isPrefixOf f.mime = false)
    (h3 : f.mime ≠ str "application/pdf") :
    (process_single_file useNem key f).status = str "Unsupported format" ∧
    (process_single_file useNem key f).text_length = 0 ∧
    (process_single_file useNem key f).ocr_text = none ∧
    (process_uploaded_files useNem key (pre ++ f :: post)).processed =
      pre.map (process_single_file useNem key) ++
        process_single_file useNem key f ::
          post.map (process_single_file useNem key) := by
  refine ⟨?_, ?_, ?_, ?_⟩
  · rw [psf_of_other useNem key f h1 h2 h3]
  · rw [psf_of_other useNem key f h1 h2 h3]
  · rw [psf_of_other useNem key f h1 h2 h3]
  · rw [processed_eq]
    simp

set_option maxRecDepth 10000 in
/-- C7, witness: a `text/plain` upload followed by a PDF upload. -/
theorem claim7_witness :
    (process_single_file false [] sampleTxtFile).status =
      str "Unsupported format" ∧
    (process_single_file false [] sampleTxtFile).text_length = 0 ∧
    (process_single_file false [] sampleTxtFile).ocr_text = none ∧
    (process_uploaded_files false [] ([] ++ sampleTxtFile :: [cpdfFile2])).processed =
      List.map (process_single_file false []) [] ++
        process_single_file false [] sampleTxtFile ::
          List.map (process_single_file false []) [cpdfFile2] :=
  claim7_unsupported false [] sampleTxtFile [] [cpdfFile2] rfl (by decide)
    (by decide)

/-- C8, counterexample: in a one-file run the trace is
`[progress 1 1, fileDone 1]` — the progress callback fires at the top of the
loop iteration, strictly BEFORE the file finishes processing, contradicting
the claim that each invocation happens only after its file completes. -/
theorem claim8_counterexample :
    (process_uploaded_files false [] [sampleTxtFile]).trace =
      [PEvent.progress 1 1, PEvent.fileDone 1] ∧
    (process_uploaded_files false [] [sampleTxtFile]).trace.indexOf
        (PEvent.progress 1 1) <
      (process_uploaded_files false [] [sampleTxtFile]).trace.indexOf
        (PEvent.fileDone 1) := by
  decide

/-- C8, amended: the callback is invoked exactly once per file with
arguments `(k, total)` where `k` is the file's 1-based index, and each
invocation for file `k` happens immediately BEFORE that file is processed:
the run trace is the concatenation of blocks
`[progress (k, total), fileDone k]`, two events per file. -/
theorem claim8_amended (useNem : Bool) (key : Str) (files : List UFile) :
    (process_uploaded_files useNem key files).trace =
      traceFrom files.length files 0 ∧
    (process_uploaded_files useNem key files).trace.length = 2 * files.length := by
  have h := trace_eq useNem key files
  exact ⟨h, by rw [h, traceFrom_length]⟩

/-- C9: when no uploaded file yields a `Success` result carrying text, the
run returns `None` for the aggregated data, `None` (not the empty string)
for the aggregate text and `None` for the combined-text path, while the
per-file results list still records every file in order. -/
theorem claim9_no_success (useNem : Bool) (key : Str) (files : List UFile)
    (h : ∀ g ∈ files,
      ¬((process_single_file useNem key g).status = str "Success" ∧
        (process_single_file useNem key g).ocr_text ≠ none)) :
    (process_uploaded_files useNem key files).file_data = none ∧
    (process_uploaded_files useNem key files).all_text = none ∧
    (process_uploaded_files useNem key files).combined_path = none ∧
    (process_uploaded_files useNem key files).processed =
      files.map (process_single_file useNem key) := by
  have hagg := aggText_eq_nil useNem key files h
  refine ⟨?_, ?_, ?_, processed_eq useNem key files⟩ <;>
    simp [process_uploaded_files, runLoop_eq, hagg]

set_option maxRecDepth 10000 in
/-- C9, witness: a run over one unsupported file. -/
theorem claim9_witness :
    (process_uploaded_files false [] [sampleTxtFile]).file_data = none ∧
    (process_uploaded_files false [] [sampleTxtFile]).all_text = none ∧
    (process_uploaded_files false [] [sampleTxtFile]).combined_path = none ∧
    (process_uploaded_files false [] [sampleTxtFile]).processed =
      List.map (process_single_file false []) [sampleTxtFile] :=
  claim9_no_success false [] [sampleTxtFile] (by decide)

/-- C10: `clean_text` is total — `None` maps to the empty string — and
idempotent: cleaning an already-cleaned string returns it unchanged. -/
theorem claim10_total_idempotent :
    clean_text none = [] ∧
    ∀ s : Str, clean_text (some (clean_text (some s))) = clean_text (some s) :=
  ⟨rfl, fun s => clean_text_chars_idem s⟩

end MedApp
